import Mathlib

/-!
Shallow embedding of the singly-linked list module `src/list.c` and proofs
about its specified behaviour.

Modelling conventions:
- The C element type `elem` (an `int`) is modelled as `Int`; no operation of
  this module performs arithmetic on element values, only comparison, so the
  value semantics agree with C `int` on all representable values.
- A node pointer is modelled by the chain of values reachable from it:
  `[]` models the `NULL` pointer, `v :: rest` a node holding `v` whose
  `next` field points to the chain `rest`.
- A `list_t *` handle is `Option Chain`: `none` models a `NULL` handle,
  `some c` a list structure whose `head` field points to `c`.
- Functions that mutate the list are state passing: they return the new
  handle (paired with the returned `elem` value where the C function
  returns one).
- `listToString` and `list_print` are modelled on their success path
  (allocation of the growable buffer succeeds); `list_print`'s model
  returns the text written to standard output.
- The one process-level effect in the module, `exit(EXIT_FAILURE)` inside
  `create_node` on `malloc` failure, is modelled explicitly with an
  allocation oracle and a `ProcResult` outcome type.
-/

namespace CList

/-- The C `elem` type (`int`), modelled as an integer value. -/
abbrev elem := Int

/-- Chain of values reachable from a node pointer; `[]` is `NULL`. -/
abbrev Chain := List elem

/-- A `list_t *` handle; `none` is a `NULL` handle. -/
abbrev ListPtr := Option Chain

/-- Outcome of running code that may terminate the whole process:
`ok` is a normal return, `exited code` models `exit(code)`. -/
inductive ProcResult (α : Type) where
  | ok : α → ProcResult α
  | exited : Nat → ProcResult α
  deriving DecidableEq

/-- The counting loop of `list_length` (src/list.c lines 123-129). -/
def lengthLoop : Chain → Int → Int
  | [], count => count
  | _ :: rest, count => lengthLoop rest (count + 1)

/-- `list_length` (src/list.c lines 121-130): number of nodes; 0 for a
`NULL` handle. -/
def list_length (l : ListPtr) : Int :=
  match l with
  | none => 0
  | some c => lengthLoop c 0

/-- `create_node` (src/list.c lines 133-142): allocates a node holding
`value` with a `NULL` next pointer. On `malloc` failure it prints to
standard error and calls `exit(EXIT_FAILURE)` (exit code 1). The `allocOk`
oracle says whether `malloc` succeeds; the node returned on success is its
value (its next pointer is `NULL`, i.e. the empty chain). -/
def create_node (allocOk : Bool) (value : elem) : ProcResult elem :=
  if allocOk then .ok value else .exited 1

/-- The append recursion of `list_add_to_back` (src/list.c lines 150-159):
an empty chain gets the new node as head, otherwise the walk reaches the
last node and attaches the new node. -/
def chain_append : Chain → elem → Chain
  | [], v => [v]
  | x :: rest, v => x :: chain_append rest v

/-- `list_add_to_back` (src/list.c lines 145-160), success path of node
allocation: appends `value` at the end; does nothing on a `NULL` handle. -/
def list_add_to_back (l : ListPtr) (value : elem) : ListPtr :=
  match l with
  | none => none
  | some c => some (chain_append c value)

/-- `list_add_to_back` with the allocation oracle of `create_node` made
explicit: on `malloc` failure the process exits with status 1. -/
def list_add_to_back_alloc (allocOk : Bool) (l : ListPtr) (value : elem) :
    ProcResult ListPtr :=
  match l with
  | none => .ok none
  | some c =>
    match create_node allocOk value with
    | .exited code => .exited code
    | .ok v => .ok (some (chain_append c v))

/-- `list_add_to_front` (src/list.c lines 163-169), success path of node
allocation: prepends `value`; does nothing on a `NULL` handle. -/
def list_add_to_front (l : ListPtr) (value : elem) : ListPtr :=
  match l with
  | none => none
  | some c => some (value :: c)

/-- The cursor walk of `list_add_at_index` (src/list.c lines 186-203):
starting from the head with `pos = 1`, advance while the cursor is not
`NULL` and `pos < index - 1`; if the cursor ends `NULL` nothing happens
(`none`), otherwise the new node is linked in after the cursor. -/
def insertWalk (value : elem) (index : Int) : Chain → Int → Option Chain
  | [], _ => none
  | x :: rest, pos =>
    if pos < index - 1 then
      match insertWalk value index rest (pos + 1) with
      | none => none
      | some rest2 => some (x :: rest2)
    else
      some (x :: value :: rest)

/-- `list_add_at_index` (src/list.c lines 176-204), success path of node
allocation: 1-based insert; `NULL` handle and `index < 1` do nothing,
`index == 1` delegates to `list_add_to_front`, otherwise the cursor walk
runs and an exhausted cursor means no change. -/
def list_add_at_index (l : ListPtr) (value : elem) (index : Int) : ListPtr :=
  match l with
  | none => none
  | some c =>
    if index < 1 then some c
    else if index = 1 then list_add_to_front (some c) value
    else
      match insertWalk value index c 1 with
      | none => some c
      | some c2 => some c2

/-- The removal recursion of `list_remove_from_back` (src/list.c lines
210-226): a single node is unlinked from the head, otherwise the walk stops
at the next-to-last node and frees its successor. The `[]` branch is
unreachable from `list_remove_from_back` (guarded by the empty check). -/
def chain_remove_back : Chain → elem × Chain
  | [] => (-1, [])
  | [x] => (x, [])
  | x :: y :: rest =>
    let r := chain_remove_back (y :: rest)
    (r.1, x :: r.2)

/-- `list_remove_from_back` (src/list.c lines 207-227): removes the last
element and returns its value; returns `-1` leaving the list unchanged on a
`NULL` handle or an empty list. -/
def list_remove_from_back (l : ListPtr) : elem × ListPtr :=
  match l with
  | none => (-1, none)
  | some [] => (-1, some [])
  | some (x :: rest) =>
    let r := chain_remove_back (x :: rest)
    (r.1, some r.2)

/-- `list_remove_from_front` (src/list.c lines 230-238): removes the first
element and returns its value; `-1` on a `NULL` handle or an empty list. -/
def list_remove_from_front (l : ListPtr) : elem × ListPtr :=
  match l with
  | none => (-1, none)
  | some [] => (-1, some [])
  | some (x :: rest) => (x, some rest)

/-- The cursor walk of `list_remove_at_index` (src/list.c lines 251-264):
advance while the cursor is not `NULL` and `pos < index - 1`; if the cursor
or its successor is `NULL` the call fails (`none`), otherwise the successor
node is unlinked and its value returned. -/
def removeWalk (index : Int) : Chain → Int → Option (elem × Chain)
  | [], _ => none
  | [x], pos =>
    if pos < index - 1 then
      Option.map (fun r => (r.1, x :: r.2)) (removeWalk index [] (pos + 1))
    else
      none
  | x :: y :: rest2, pos =>
    if pos < index - 1 then
      Option.map (fun r => (r.1, x :: r.2)) (removeWalk index (y :: rest2) (pos + 1))
    else
      some (y, x :: rest2)

/-- `list_remove_at_index` (src/list.c lines 243-265): 1-based removal;
`-1` leaving the list unchanged on a `NULL` handle, an empty list or an
invalid index; `index == 1` delegates to `list_remove_from_front`. -/
def list_remove_at_index (l : ListPtr) (index : Int) : elem × ListPtr :=
  match l with
  | none => (-1, none)
  | some [] => (-1, some [])
  | some (x :: rest) =>
    if index < 1 then (-1, some (x :: rest))
    else if index = 1 then list_remove_from_front (some (x :: rest))
    else
      match removeWalk index (x :: rest) 1 with
      | none => (-1, some (x :: rest))
      | some r => (r.1, some r.2)

/-- The search loop of `list_is_in` (src/list.c lines 271-276). -/
def chain_is_in : Chain → elem → Bool
  | [], _ => false
  | x :: rest, v => if x = v then true else chain_is_in rest v

/-- `list_is_in` (src/list.c lines 268-277): membership test; `false` on a
`NULL` handle. -/
def list_is_in (l : ListPtr) (value : elem) : Bool :=
  match l with
  | none => false
  | some c => chain_is_in c value

/-- The lookup loop of `list_get_elem_at` (src/list.c lines 283-290). -/
def getWalk : Chain → Int → Int → elem
  | [], _, _ => -1
  | x :: rest, pos, index =>
    if pos = index then x else getWalk rest (pos + 1) index

/-- `list_get_elem_at` (src/list.c lines 280-291): value at the 1-based
`index`; `-1` on a `NULL` handle or an invalid index. -/
def list_get_elem_at (l : ListPtr) (index : Int) : elem :=
  match l with
  | none => -1
  | some c => if index < 1 then -1 else getWalk c 1 index

/-- The search loop of `list_get_index_of` (src/list.c lines 298-305). -/
def indexWalk : Chain → elem → Int → Int
  | [], _, _ => -1
  | x :: rest, v, pos => if x = v then pos else indexWalk rest v (pos + 1)

/-- `list_get_index_of` (src/list.c lines 295-306): 1-based index of the
first occurrence of `value`; `-1` if absent or on a `NULL` handle. -/
def list_get_index_of (l : ListPtr) (value : elem) : Int :=
  match l with
  | none => -1
  | some c => indexWalk c value 1

/-- The building loop of `listToString` (src/list.c lines 75-115): the
buffer accumulates `"%d->"` for every node, then the final `"NULL"` is
appended. -/
def toStringLoop : Chain → String → String
  | [], buf => buf ++ "NULL"
  | v :: rest, buf => toStringLoop rest (buf ++ (toString v ++ "->"))

/-- `listToString` (src/list.c lines 62-118), success path of buffer
allocation: `none` on a `NULL` handle, otherwise the built string. -/
def listToString (l : ListPtr) : Option String :=
  match l with
  | none => none
  | some c => some (toStringLoop c "")

/-- The printing loop of `list_print` (src/list.c lines 52-56): every node
prints `"%d ->"`, then `"NULL\n"` is printed. -/
def printLoop : Chain → String
  | [] => "NULL\n"
  | v :: rest => (toString v ++ " ->") ++ printLoop rest

/-- `list_print` (src/list.c lines 40-57), modelled as the text written to
standard output: `"LIST IS NULL\n"` on a `NULL` handle, `"LIST IS EMPTY\n"`
on an empty list, otherwise the printed chain. -/
def list_print (l : ListPtr) : String :=
  match l with
  | none => "LIST IS NULL\n"
  | some [] => "LIST IS EMPTY\n"
  | some (x :: rest) => printLoop (x :: rest)

/-- A fresh list populated by calling `list_add_to_back` with the values of
`vs` in order, starting from the empty list that `list_alloc` returns. -/
def buildBack (vs : List elem) : ListPtr :=
  vs.foldl list_add_to_back (some [])

/-- Iterating `list_remove_from_back` a given number of times, keeping only
the evolving list state. -/
def removeBackN : Nat → ListPtr → ListPtr
  | 0, l => l
  | n + 1, l => removeBackN n (list_remove_from_back l).2

/-- Rendering described by the spec: the chain `v1 v2 ... vk` reads as
`v1`, separator, `v2`, separator, ..., `vk`, separator, `NULL`, and the
empty chain as just `NULL`. With `sep = "->"` this is the spec's
`"v1->v2->...->vk->NULL"` (and `"NULL"` for the empty list). -/
def specChainString (sep : String) : Chain → String
  | [] => "NULL"
  | v :: rest => toString v ++ sep ++ specChainString sep rest

/-! Helper lemmas about the embedded operations. -/

theorem chain_append_eq (c : Chain) (v : elem) : chain_append c v = c ++ [v] := by
  induction c with
  | nil => rfl
  | cons x rest ih => simp [chain_append, ih]

theorem lengthLoop_eq (c : Chain) : ∀ acc : Int, lengthLoop c acc = acc + c.length := by
  induction c with
  | nil => intro acc; simp [lengthLoop]
  | cons x rest ih =>
    intro acc
    rw [lengthLoop, ih]
    push_cast [List.length_cons]
    ring

theorem list_length_some (c : Chain) : list_length (some c) = (c.length : Int) := by
  simp [list_length, lengthLoop_eq]

theorem foldl_add_to_back (vs : List elem) :
    ∀ c : Chain, vs.foldl list_add_to_back (some c) = some (c ++ vs) := by
  induction vs with
  | nil => intro c; simp
  | cons x rest ih =>
    intro c
    rw [List.foldl_cons]
    show rest.foldl list_add_to_back (some (chain_append c x)) = _
    rw [chain_append_eq, ih]
    simp

theorem buildBack_eq (vs : List elem) : buildBack vs = some vs := by
  rw [buildBack, foldl_add_to_back]
  simp

theorem getWalk_spec (c : Chain) :
    ∀ (j : Nat) (pos : Int) (hj : j < c.length),
      getWalk c pos (pos + j) = c.get ⟨j, hj⟩ := by
  induction c with
  | nil => intro j pos hj; simp at hj
  | cons x rest ih =>
    intro j pos hj
    cases j with
    | zero => simp [getWalk]
    | succ k =>
      have h1 : ¬ pos = pos + ((k + 1 : Nat) : Int) := by push_cast; omega
      have h2 : pos + ((k + 1 : Nat) : Int) = (pos + 1) + (k : Int) := by push_cast; ring
      rw [getWalk, if_neg h1, h2, ih k (pos + 1) (by simpa using hj)]
      rfl

theorem insertWalk_append (v : elem) :
    ∀ (c : Chain), c ≠ [] → ∀ pos : Int,
      insertWalk v (pos + c.length) c pos = some (chain_append c v) := by
  intro c
  induction c with
  | nil => intro h; exact absurd rfl h
  | cons x rest ih =>
    intro _ pos
    cases rest with
    | nil =>
      have hc : ¬ pos < pos + (([x] : Chain).length : Int) - 1 := by
        simp
      rw [insertWalk, if_neg hc]
      rfl
    | cons y rest2 =>
      have hc : pos < pos + (((x :: y :: rest2 : Chain).length : Nat) : Int) - 1 := by
        push_cast [List.length_cons]
        omega
      have hidx : pos + (((x :: y :: rest2 : Chain).length : Nat) : Int)
          = (pos + 1) + (((y :: rest2 : Chain).length : Nat) : Int) := by
        push_cast [List.length_cons]
        ring
      rw [insertWalk, if_pos hc, hidx, ih (by simp) (pos + 1)]
      rfl

theorem insertWalk_none (v : elem) (index : Int) :
    ∀ (c : Chain) (pos : Int), pos + (c.length : Int) < index →
      insertWalk v index c pos = none := by
  intro c
  induction c with
  | nil => intro pos _; rfl
  | cons x rest ih =>
    intro pos h
    rw [List.length_cons] at h
    push_cast at h
    have hc : pos < index - 1 := by omega
    rw [insertWalk, if_pos hc, ih (pos + 1) (by omega)]

theorem chain_remove_back_spec :
    ∀ (c : Chain) (h : c ≠ []), chain_remove_back c = (c.getLast h, c.dropLast) := by
  intro c
  induction c with
  | nil => intro h; exact absurd rfl h
  | cons x rest ih =>
    intro h
    cases rest with
    | nil => rfl
    | cons y rest2 =>
      rw [chain_remove_back, List.getLast_cons (by simp), ih (by simp)]
      rfl

theorem remove_from_back_some (c : Chain) (h : c ≠ []) :
    list_remove_from_back (some c) = (c.getLast h, some c.dropLast) := by
  obtain ⟨x, rest, rfl⟩ := List.exists_cons_of_ne_nil h
  rw [list_remove_from_back, chain_remove_back_spec (x :: rest) h]

theorem removeBackN_drains : ∀ (n : Nat) (c : Chain), c.length = n →
    removeBackN n (some c) = some [] := by
  intro n
  induction n with
  | zero =>
    intro c hc
    rw [List.length_eq_zero.mp hc]
    rfl
  | succ k ih =>
    intro c hc
    have hne : c ≠ [] := by
      intro h
      rw [h] at hc
      simp at hc
    rw [removeBackN, remove_from_back_some c hne]
    exact ih c.dropLast (by rw [List.length_dropLast, hc]; rfl)

theorem removeWalk_spec :
    ∀ (c : Chain) (j : Nat) (pos : Int), 1 ≤ j → ∀ hj : j < c.length,
      removeWalk (pos + j) c pos = some (c.get ⟨j, hj⟩, c.take j ++ c.drop (j + 1)) := by
  intro c
  induction c with
  | nil => intro j pos _ hj; simp at hj
  | cons x rest ih =>
    intro j pos h1 hj
    have hr : rest ≠ [] := by
      intro h
      rw [h] at hj
      simp at hj
      omega
    obtain ⟨y, rest2, rfl⟩ := List.exists_cons_of_ne_nil hr
    match j, h1, hj with
    | 1, _, hj =>
      have hc : ¬ pos < pos + ((1 : Nat) : Int) - 1 := by push_cast; omega
      rw [removeWalk, if_neg hc]
      rfl
    | k + 2, _, hj =>
      have hc : pos < pos + ((k + 2 : Nat) : Int) - 1 := by push_cast; omega
      have hidx : pos + ((k + 2 : Nat) : Int) = (pos + 1) + ((k + 1 : Nat) : Int) := by
        push_cast
        ring
      rw [removeWalk, if_pos hc, hidx,
        ih (k + 1) (pos + 1) (by omega) (by simp only [List.length_cons] at hj ⊢; omega)]
      rfl

theorem toStringLoop_eq (c : Chain) :
    ∀ buf : String, toStringLoop c buf = buf ++ specChainString "->" c := by
  induction c with
  | nil => intro buf; rfl
  | cons x rest ih =>
    intro buf
    rw [toStringLoop, ih, specChainString]
    simp [String.append_assoc]

theorem listToString_some (c : Chain) :
    listToString (some c) = some (specChainString "->" c) := by
  rw [listToString, toStringLoop_eq]
  rfl

theorem printLoop_eq (c : Chain) : printLoop c = specChainString " ->" c ++ "\n" := by
  induction c with
  | nil => rfl
  | cons x rest ih =>
    rw [printLoop, ih, specChainString]
    simp [String.append_assoc]

/-! Claim theorems. -/

/-- C1: for every sequence of values `v1..vn`, the list built by calling
`list_add_to_back` with `v1..vn` in order starting from a fresh empty list
satisfies `list_get_elem_at i = vi` for every `i` in `[1, n]` and
`list_length = n`. -/
theorem C1_addToBack_builds_sequence (vs : List elem) :
    list_length (buildBack vs) = (vs.length : Int) ∧
    ∀ (i : Nat) (h1 : 1 ≤ i) (h2 : i ≤ vs.length),
      list_get_elem_at (buildBack vs) (i : Int) = vs.get ⟨i - 1, by omega⟩ := by
  rw [buildBack_eq]
  refine ⟨list_length_some vs, ?_⟩
  intro i h1 h2
  have hne : ¬ (i : Int) < 1 := by omega
  have hg := getWalk_spec vs (i - 1) 1 (by omega)
  rw [show (1 : Int) + ((i - 1 : Nat) : Int) = (i : Int) by omega] at hg
  rw [list_get_elem_at, if_neg hne]
  exact hg

/-- Witness for C1 at the concrete input `[7, -2]`, `i = 2`. -/
theorem C1_addToBack_builds_sequence_w :
    list_length (buildBack [7, -2]) = 2 ∧
    list_get_elem_at (buildBack [7, -2]) 2 = -2 := by
  have h := C1_addToBack_builds_sequence [7, -2]
  exact ⟨h.1.trans (by decide), (h.2 2 (by decide) (by decide)).trans (by decide)⟩

/-- C2: `listToString` yields exactly `"v1->v2->...->vk->NULL"` for a
non-empty list and `"NULL"` for an empty list; in particular the list built
from `[3, 1, 4, 1, 5]` via sequential `list_add_to_back` yields
`"3->1->4->1->5->NULL"`. -/
theorem C2_toString_format :
    (∀ vs : List elem, listToString (some vs) = some (specChainString "->" vs)) ∧
    listToString (buildBack [3, 1, 4, 1, 5]) = some "3->1->4->1->5->NULL" :=
  ⟨listToString_some, by decide⟩

/-- C3: the claim says no error condition terminates the process, but on
allocation failure `create_node` calls `exit(EXIT_FAILURE)`: with the
allocation oracle reporting `malloc` failure, `list_add_to_back` on an
empty list ends with the process exiting with status 1 instead of
returning to the caller. -/
theorem C3_alloc_failure_exits :
    list_add_to_back_alloc false (some []) 5 = ProcResult.exited 1 := rfl

/-- C4: for every prior list state and value, `list_add_at_index` at index
1 produces the same resulting list as `list_add_to_front`, and at index
`list_length + 1` the same resulting list as `list_add_to_back`. -/
theorem C4_addAtIndex_front_back (l : ListPtr) (v : elem) :
    list_add_at_index l v 1 = list_add_to_front l v ∧
    list_add_at_index l v (list_length l + 1) = list_add_to_back l v := by
  cases l with
  | none => exact ⟨rfl, rfl⟩
  | some c =>
    refine ⟨by rw [list_add_at_index]; simp, ?_⟩
    rw [list_length_some]
    cases c with
    | nil => rfl
    | cons x rest =>
      have h1 : ¬ (((x :: rest : Chain).length : Int) + 1) < 1 := by
        have := Int.natCast_nonneg (x :: rest : Chain).length
        omega
      have h2 : (((x :: rest : Chain).length : Int) + 1) ≠ 1 := by
        simp only [List.length_cons]
        push_cast
        omega
      rw [list_add_at_index, if_neg h1, if_neg h2]
      have hw := insertWalk_append v (x :: rest) (by simp) 1
      rw [show (1 : Int) + ((x :: rest : Chain).length : Int)
          = ((x :: rest : Chain).length : Int) + 1 by ring] at hw
      rw [hw]
      rfl

/-- C5: for a list built by `list_add_to_back` with `v1..vn`, `n ≥ 1`,
`list_remove_from_back` returns `vn` and decreases the length by exactly 1,
and repeating the removal `n` times yields an empty list. -/
theorem C5_removeFromBack_last (vs : List elem) (h : vs ≠ []) :
    (list_remove_from_back (buildBack vs)).1 = vs.getLast h ∧
    list_length (list_remove_from_back (buildBack vs)).2 = (vs.length : Int) - 1 ∧
    removeBackN vs.length (buildBack vs) = some [] := by
  rw [buildBack_eq, remove_from_back_some vs h]
  refine ⟨rfl, ?_, removeBackN_drains vs.length vs rfl⟩
  rw [list_length_some, List.length_dropLast]
  have : 1 ≤ vs.length := List.length_pos.mpr h
  omega

/-- Witness for C5 at the concrete input `[4, 9]`. -/
theorem C5_removeFromBack_last_w :
    (list_remove_from_back (buildBack [4, 9])).1 = 9 ∧
    list_length (list_remove_from_back (buildBack [4, 9])).2 = 1 ∧
    removeBackN 2 (buildBack [4, 9]) = some [] := by
  have h := C5_removeFromBack_last [4, 9] (by decide)
  exact ⟨h.1.trans (by decide), h.2.1.trans (by decide), h.2.2⟩

/-- C6: for every list state and value, `list_add_at_index` with an index
below 1 or above `list_length + 1` is a silent no-op: the resulting list is
identical to the prior one. -/
theorem C6_addAtIndex_out_of_range (l : ListPtr) (v : elem) (i : Int)
    (h : i < 1 ∨ i > list_length l + 1) :
    list_add_at_index l v i = l := by
  cases l with
  | none => rfl
  | some c =>
    rw [list_length_some] at h
    rcases h with h | h
    · rw [list_add_at_index, if_pos h]
    · have h0 := Int.natCast_nonneg c.length
      have h1 : ¬ i < 1 := by omega
      have h2 : i ≠ 1 := by omega
      rw [list_add_at_index, if_neg h1, if_neg h2,
        insertWalk_none v i c 1 (by omega)]

/-- Witness for C6 at the concrete input: list `[1, 2]`, index 5. -/
theorem C6_addAtIndex_out_of_range_w :
    ((5 : Int) < 1 ∨ (5 : Int) > list_length (some [1, 2]) + 1) ∧
    list_add_at_index (some [1, 2]) 7 5 = some [1, 2] := by
  have hd : (5 : Int) < 1 ∨ (5 : Int) > list_length (some [1, 2]) + 1 :=
    Or.inr (by decide)
  exact ⟨hd, C6_addAtIndex_out_of_range (some [1, 2]) 7 5 hd⟩

/-- C7: on an empty list, `list_remove_from_back`, `list_remove_from_front`
and `list_remove_at_index` each fail with the sentinel value `-1` and the
list remains empty afterward. -/
theorem C7_remove_on_empty :
    list_remove_from_back (some ([] : Chain)) = (-1, some []) ∧
    list_remove_from_front (some ([] : Chain)) = (-1, some []) ∧
    ∀ i : Int, list_remove_at_index (some ([] : Chain)) i = (-1, some []) :=
  ⟨rfl, rfl, fun _ => rfl⟩

/-- C8, counterexample: the claim says `list_print` writes content whose
chain renders each element and arrow identically to `listToString`, but on
the one-element list `[3]` the printed text is `"3 ->NULL\n"` (a space
before the arrow, from the `"%d ->"` format) while `listToString` returns
`"3->NULL"`; the printed text matches neither that string nor that string
with a newline appended. -/
theorem C8_print_toString_cex :
    list_print (some [3]) = "3 ->NULL\n" ∧
    listToString (some [3]) = some "3->NULL" ∧
    list_print (some [3]) ≠ "3->NULL" ∧
    list_print (some [3]) ≠ "3->NULL" ++ "\n" := by decide

/-- C8, amended: for every non-NULL, non-empty list, `list_print` writes
the same chain of elements as `listToString`, except that each arrow is
rendered with a preceding space (`"v ->"` instead of `"v->"`) and a
newline is appended: the printed text is the chain rendered with
separator `" ->"` plus `"\n"`, while `listToString` is the chain rendered
with separator `"->"`. -/
theorem C8_print_renders_chain (vs : List elem) (h : vs ≠ []) :
    list_print (some vs) = specChainString " ->" vs ++ "\n" ∧
    listToString (some vs) = some (specChainString "->" vs) := by
  obtain ⟨x, rest, rfl⟩ := List.exists_cons_of_ne_nil h
  exact ⟨printLoop_eq (x :: rest), listToString_some (x :: rest)⟩

/-- Witness for the amended C8 at the concrete input `[3, 1]`. -/
theorem C8_print_renders_chain_w :
    list_print (some [3, 1]) = "3 ->1 ->NULL\n" ∧
    listToString (some [3, 1]) = some "3->1->NULL" := by
  have h := C8_print_renders_chain [3, 1] (by decide)
  exact ⟨h.1.trans (by decide), h.2.trans (by decide)⟩

/-- C9: for every list with elements `v1..vk` and every index `i` in
`[2, k]`, `list_remove_at_index i` returns `vi` and leaves the list holding
exactly `v1..v(i-1), v(i+1)..vk` in that order. -/
theorem C9_removeAtIndex_middle (vs : List elem) (i : Nat)
    (h2 : 2 ≤ i) (hk : i ≤ vs.length) :
    list_remove_at_index (some vs) (i : Int) =
      (vs.get ⟨i - 1, by omega⟩, some (vs.take (i - 1) ++ vs.drop i)) := by
  cases vs with
  | nil => simp at hk; omega
  | cons x rest =>
    have h1 : ¬ (i : Int) < 1 := by omega
    have hne : (i : Int) ≠ 1 := by omega
    have hw := removeWalk_spec (x :: rest) (i - 1) 1 (by omega) (by omega)
    rw [show (1 : Int) + ((i - 1 : Nat) : Int) = (i : Int) by omega] at hw
    rw [show i - 1 + 1 = i by omega] at hw
    rw [list_remove_at_index, if_neg h1, if_neg hne, hw]

/-- Witness for C9 at the concrete input `[10, 20, 30]`, `i = 2`. -/
theorem C9_removeAtIndex_middle_w :
    list_remove_at_index (some [10, 20, 30]) 2 = (20, some [10, 30]) := by
  have h := C9_removeAtIndex_middle [10, 20, 30] 2 (by decide) (by decide)
  exact h.trans (by decide)

/-- C10: every public operation tolerates a NULL list handle: the mutators
do nothing, the removals and lookups return the sentinel `-1`,
`list_is_in` returns false, `list_length` returns 0 and `listToString`
returns NULL. -/
theorem C10_null_handle_tolerated :
    ∀ (v : elem) (i : Int),
      list_add_to_back none v = none ∧
      list_add_to_front none v = none ∧
      list_add_at_index none v i = none ∧
      list_remove_from_back none = (-1, none) ∧
      list_remove_from_front none = (-1, none) ∧
      list_remove_at_index none i = (-1, none) ∧
      list_get_elem_at none i = -1 ∧
      list_get_index_of none v = -1 ∧
      list_is_in none v = false ∧
      list_length none = 0 ∧
      listToString none = none :=
  fun _ _ => ⟨rfl, rfl, rfl, rfl, rfl, rfl, rfl, rfl, rfl, rfl, rfl⟩

end CList
